import Mathlib

/-!
Shallow embedding of the PRG_IGP-2 financial-report generator
(`cash_on_hand.py`, `profit_and_loss.py`, `overheads.py`, `main.py`).

Days are Python ints (ℤ), monetary values Python floats carrying exact
decimal data (modelled as ℚ).  File reading is modelled as a function
from already-split CSV rows (one structure per file schema) to an
`Except`; the run of `main.generate_summary_report` is modelled as an
event trace (reads, pure analysis steps, opening the output file, and
the individual `file.write` calls) together with its outcome.
-/

namespace PRG

namespace cash_on_hand

/-- `cash_on_hand.compute_differences`: for `i` in
`range(1, len(cash_data))` append
`(cash_data[i][0], cash_data[i][1] - cash_data[i-1][1])`. -/
def compute_differences (cash_data : List (ℤ × ℚ)) : List (ℤ × ℚ) :=
  ((List.range cash_data.length).drop 1).map fun i =>
    ((cash_data.getD i (0, 0)).1,
      (cash_data.getD i (0, 0)).2 - (cash_data.getD (i - 1) (0, 0)).2)

end cash_on_hand

namespace profit_and_loss

/-- `profit_and_loss.compute_differences`: same loop, written in the
source with tuple unpacking of the current and previous rows. -/
def compute_differences (profit_loss_data : List (ℤ × ℚ)) : List (ℤ × ℚ) :=
  ((List.range profit_loss_data.length).drop 1).map fun i =>
    let cur := profit_loss_data.getD i (0, 0)
    let prev := profit_loss_data.getD (i - 1) (0, 0)
    (cur.1, cur.2 - prev.2)

end profit_and_loss

/-- One iteration of the extremes loop; the loop body is identical in
`cash_on_hand.find_extremes` and `profit_and_loss.find_extremes`:
`if difference > highest_increase[1]: highest_increase = (day, difference)`
`elif difference < highest_decrease[1]: highest_decrease = (day, difference)`;
then `if difference < 0: deficits.append((day, difference))`.
State is `(highest_increase, (highest_decrease, deficits))`. -/
def extremesStep (acc : (ℤ × ℚ) × (ℤ × ℚ) × List (ℤ × ℚ)) (p : ℤ × ℚ) :
    (ℤ × ℚ) × (ℤ × ℚ) × List (ℤ × ℚ) :=
  let hilo :=
    if p.2 > acc.1.2 then (p, acc.2.1)
    else if p.2 < acc.2.1.2 then (acc.1, p)
    else (acc.1, acc.2.1)
  (hilo.1, hilo.2, if p.2 < 0 then acc.2.2 ++ [p] else acc.2.2)

/-- Variant of `extremesStep` in which the minimum update is an
independent `if` instead of the source's `elif`; used only to compare
against the source's behaviour. -/
def extremesStepUnguarded (acc : (ℤ × ℚ) × (ℤ × ℚ) × List (ℤ × ℚ)) (p : ℤ × ℚ) :
    (ℤ × ℚ) × (ℤ × ℚ) × List (ℤ × ℚ) :=
  ((if p.2 > acc.1.2 then p else acc.1),
   (if p.2 < acc.2.1.2 then p else acc.2.1),
   (if p.2 < 0 then acc.2.2 ++ [p] else acc.2.2))

/-- Comparison key used by both modules to sort deficits:
`key=lambda deficit: deficit[1]` (stable ascending sort by amount). -/
def deficitLE (a b : ℤ × ℚ) : Bool := decide (a.2 ≤ b.2)

namespace cash_on_hand

/-- `cash_on_hand.find_extremes`: sentinel-seeded single-pass scan, then
`deficits.sort(key=...)` (Python's stable sort) and `deficits[:3]`. -/
def find_extremes (differences : List (ℤ × ℚ)) :
    (ℤ × ℚ) × (ℤ × ℚ) × List (ℤ × ℚ) :=
  let scan := differences.foldl extremesStep ((0, 0), (0, 0), [])
  let deficits_sorted := scan.2.2.mergeSort deficitLE
  let top_deficits := deficits_sorted.take 3
  (scan.1, scan.2.1, top_deficits)

end cash_on_hand

namespace profit_and_loss

/-- `profit_and_loss.find_extremes`: same scan; the source uses
`sorted(deficits, key=...)` followed by slicing `[:3]`. -/
def find_extremes (differences : List (ℤ × ℚ)) :
    (ℤ × ℚ) × (ℤ × ℚ) × List (ℤ × ℚ) :=
  let scan := differences.foldl extremesStep ((0, 0), (0, 0), [])
  let deficits_sorted := scan.2.2.mergeSort deficitLE
  let top_deficits := deficits_sorted.take 3
  (scan.1, scan.2.1, top_deficits)

end profit_and_loss

/-- The `find_extremes` scan with the unguarded (independent `if`) step,
for claim comparison only. -/
def find_extremes_unguarded (differences : List (ℤ × ℚ)) :
    (ℤ × ℚ) × (ℤ × ℚ) × List (ℤ × ℚ) :=
  let scan := differences.foldl extremesStepUnguarded ((0, 0), (0, 0), [])
  let deficits_sorted := scan.2.2.mergeSort deficitLE
  let top_deficits := deficits_sorted.take 3
  (scan.1, scan.2.1, top_deficits)

/-- One overhead record, as built by `overheads.read_overheads`:
`{'category': ..., 'overhead': ...}`. -/
structure Overhead where
  category : String
  overhead : ℚ
  deriving DecidableEq

/-- `overheads.find_highest_overhead`: running strict maximum over the
`overhead` field, seeded with `{'category': '', 'overhead': 0}`. -/
def find_highest_overhead (overheads : List Overhead) : Overhead :=
  overheads.foldl
    (fun highest_overhead category_data =>
      if category_data.overhead > highest_overhead.overhead then category_data
      else highest_overhead)
    ⟨"", 0⟩

/-- The running strict maximum of the key `f` with seed `a`.  The
`highest_increase` component of the extremes loop evolves as this
function with `f = Prod.snd` (it is updated exactly when
`difference > highest_increase[1]`, independently of the `elif`
branch), and `find_highest_overhead` is this function with
`f = Overhead.overhead` seeded at the sentinel.  Used only in proofs. -/
def runMaxBy {α : Type} (f : α → ℚ) (l : List α) (a : α) : α :=
  l.foldl (fun m p => if f p > f m then p else m) a

/-- Modelled from the spec: Python's `str()` on the float amounts of this
program ("amounts are emitted as their raw decimal value").  The amounts
are exact short decimals, for which Python prints sign, integer part, a
dot, and the fraction digits without trailing zeros (integers print as
`60.0`).  `decExp q.den` is the number of fraction digits. -/
def decExp (den : ℕ) : ℕ :=
  (((List.range 40).find? fun k => 10 ^ k % den = 0)).getD 0

/-- Modelled from the spec: decimal rendering of a rational amount, equal
to Python's `str()` on the corresponding float for exact short decimals. -/
def pyFloatRepr (q : ℚ) : String :=
  let sign := if q.num < 0 then "-" else ""
  let m := q.num.natAbs
  let k := decExp q.den
  if k = 0 then sign ++ toString m ++ ".0"
  else
    let scaled := m * (10 ^ k / q.den)
    let ip := scaled / 10 ^ k
    let fp := scaled % 10 ^ k
    let fpStr := toString fp
    sign ++ toString ip ++ "." ++
      String.mk (List.replicate (k - fpStr.length) '0') ++ fpStr

/-- Value of a non-empty all-digit character sequence, `none` otherwise.
Building block for the numeral coercions below. -/
def digitsVal : List Char → Option ℕ
  | [] => none
  | cs =>
    cs.foldl
      (fun acc c =>
        match acc with
        | none => none
        | some n => if c.isDigit then some (10 * n + (c.toNat - 48)) else none)
      (some 0)

/-- Split a character sequence at every dot. -/
def splitOnDot : List Char → List (List Char)
  | [] => [[]]
  | c :: rest =>
    let r := splitOnDot rest
    if c = '.' then [] :: r
    else
      match r with
      | [] => [[c]]
      | h :: t => (c :: h) :: t

/-- Signed integer numeral over characters: optional sign, then digits. -/
def pyIntChars : List Char → Option ℤ
  | '-' :: cs => (digitsVal cs).map fun n => -(n : ℤ)
  | '+' :: cs => (digitsVal cs).map fun n => (n : ℤ)
  | cs => (digitsVal cs).map fun n => (n : ℤ)

/-- Modelled from the spec: Python `int()` coercion of a CSV cell
(`FormatError` when the text is not an integer numeral). -/
def pyInt (s : String) : Option ℤ := pyIntChars s.data

/-- Modelled from the spec: Python `float()` coercion of a CSV cell
(`FormatError` when the text is not a decimal numeral).  Accepts an
integer numeral or integer-dot-fraction. -/
def pyFloat (s : String) : Option ℚ :=
  match splitOnDot s.data with
  | [w] => (pyIntChars w).map fun n => (n : ℚ)
  | [w, f] =>
    match pyIntChars w, digitsVal f with
    | some n, some fn =>
      let mag : ℚ := (n.natAbs : ℚ) + (fn : ℚ) / (10 : ℚ) ^ f.length
      some (if w.headD ' ' = '-' then -mag else mag)
    | _, _ => none
  | _ => none

/-- The error raised when a CSV value fails type coercion (Python
`ValueError` from `int()`/`float()`; the spec's `FormatError`). -/
inductive PyError where
  | formatError
  deriving DecidableEq

/-- Coercion of one cell to `int`, as `int(row[...])`. -/
def coerceInt (s : String) : Except PyError ℤ :=
  match pyInt s with
  | some n => .ok n
  | none => .error .formatError

/-- Coercion of one cell to `float`, as `float(row[...])`. -/
def coerceFloat (s : String) : Except PyError ℚ :=
  match pyFloat s with
  | some q => .ok q
  | none => .error .formatError

/-- One row of the cash CSV after `csv.DictReader`: the raw string cells
of the `Day` and `Cash On Hand` columns. -/
structure CashRow where
  day : String
  cash_on_hand : String

/-- One row of the profit CSV: the `Day` and `Net Profit` cells. -/
structure ProfitRow where
  day : String
  net_profit : String

/-- One row of the overheads CSV: the `Category` and `Overheads` cells. -/
structure OverheadRow where
  category : String
  overheads : String

/-- `cash_on_hand.read_cash_on_hand`, over already-split rows: for each
row in order coerce `Day` to int and `Cash On Hand` to float and append
`(day, cash)`; the first coercion failure aborts the read. -/
def read_cash_on_hand : List CashRow → Except PyError (List (ℤ × ℚ))
  | [] => .ok []
  | row :: rows =>
    match coerceInt row.day with
    | .error e => .error e
    | .ok day =>
      match coerceFloat row.cash_on_hand with
      | .error e => .error e
      | .ok cash =>
        match read_cash_on_hand rows with
        | .error e => .error e
        | .ok rest => .ok ((day, cash) :: rest)

/-- `profit_and_loss.read_profit_loss`, over already-split rows. -/
def read_profit_loss : List ProfitRow → Except PyError (List (ℤ × ℚ))
  | [] => .ok []
  | row :: rows =>
    match coerceInt row.day with
    | .error e => .error e
    | .ok day =>
      match coerceFloat row.net_profit with
      | .error e => .error e
      | .ok profit =>
        match read_profit_loss rows with
        | .error e => .error e
        | .ok rest => .ok ((day, profit) :: rest)

/-- `overheads.read_overheads`, over already-split rows. -/
def read_overheads : List OverheadRow → Except PyError (List Overhead)
  | [] => .ok []
  | row :: rows =>
    match coerceFloat row.overheads with
    | .error e => .error e
    | .ok overhead =>
      match read_overheads rows with
      | .error e => .error e
      | .ok rest => .ok (Overhead.mk row.category overhead :: rest)

/-- `["1ST", "2ND", "3RD"]` from `main.generate_summary_report`. -/
def ordinals : List String := ["1ST", "2ND", "3RD"]

/-- The single line written by the consistent-cash branch of
`main.generate_summary_report`. -/
def surplus_cash_line (cash_increase : ℤ × ℚ) : String :=
  "[HIGHEST CASH SURPLUS] DAY: " ++ toString cash_increase.1 ++
    ", AMOUNT: USD" ++ pyFloatRepr cash_increase.2 ++ "\n\n"

/-- The single line written by the consistent-profit branch. -/
def surplus_profit_line (profit_increase : ℤ × ℚ) : String :=
  "[HIGHEST NET PROFIT SURPLUS] DAY: " ++ toString profit_increase.1 ++
    ", AMOUNT: USD" ++ pyFloatRepr profit_increase.2 ++ "\n\n"

/-- The cash block of `main.generate_summary_report` as the list of
`file.write` arguments: `consistent_cash = all(d >= 0 ...)`; if
consistent one surplus line, else one `[CASH DEFICIT]` line per negative
difference, a blank line, the ranked top-3 lines over
`sorted(cash_deficits, key=amount)[:3]`, and a blank line. -/
def cash_section (cash_differences : List (ℤ × ℚ)) (cash_increase : ℤ × ℚ)
    (cash_deficits : List (ℤ × ℚ)) : List String :=
  let consistent_cash := cash_differences.all fun p => decide (p.2 ≥ 0)
  if consistent_cash then [surplus_cash_line cash_increase]
  else
    ((cash_differences.filter fun p => decide (p.2 < 0)).map fun p =>
        "[CASH DEFICIT] DAY: " ++ toString p.1 ++
          ", AMOUNT: USD" ++ pyFloatRepr (abs p.2) ++ "\n")
      ++ ["\n"]
      ++ (((cash_deficits.mergeSort deficitLE).take 3).enum.map fun ip =>
        "[" ++ ordinals.getD ip.1 "" ++ " HIGHEST CASH DEFICIT] DAY: " ++
          toString ip.2.1 ++ ", AMOUNT: USD" ++ pyFloatRepr (abs ip.2.2) ++ "\n")
      ++ ["\n"]

/-- The profit block, identical in structure to `cash_section`. -/
def profit_section (profit_differences : List (ℤ × ℚ)) (profit_increase : ℤ × ℚ)
    (profit_deficits : List (ℤ × ℚ)) : List String :=
  let consistent_profit := profit_differences.all fun p => decide (p.2 ≥ 0)
  if consistent_profit then [surplus_profit_line profit_increase]
  else
    ((profit_differences.filter fun p => decide (p.2 < 0)).map fun p =>
        "[NET PROFIT DEFICIT] DAY: " ++ toString p.1 ++
          ", AMOUNT: USD" ++ pyFloatRepr (abs p.2) ++ "\n")
      ++ ["\n"]
      ++ (((profit_deficits.mergeSort deficitLE).take 3).enum.map fun ip =>
        "[" ++ ordinals.getD ip.1 "" ++ " HIGHEST NET PROFIT DEFICIT] DAY: " ++
          toString ip.2.1 ++ ", AMOUNT: USD" ++ pyFloatRepr (abs ip.2.2) ++ "\n")
      ++ ["\n"]

/-- The first `file.write` argument: the highest-overhead headline. -/
def overhead_line (highest_overhead : Overhead) : String :=
  "[HIGHEST OVERHEAD] " ++ highest_overhead.category.toUpper ++ ": " ++
    pyFloatRepr highest_overhead.overhead ++ "%\n\n"

/-- Observable events of one run of `main.generate_summary_report`, in
program order: completing each CSV read, each pure analysis step,
opening (and truncating) the output file, and each `file.write`. -/
inductive Event where
  | readCash
  | readOverheads
  | readProfit
  | analyzeCashDifferences
  | analyzeCashExtremes
  | analyzeHighestOverhead
  | analyzeProfitDifferences
  | analyzeProfitExtremes
  | openOutput
  | write (s : String)
  deriving DecidableEq

/-- `main.generate_summary_report` as an event trace plus outcome.  The
source order is: read cash, compute cash differences, cash extremes,
read overheads, highest overhead, read profit, profit differences,
profit extremes, open the output file, then the writes (headline, cash
block, profit block).  A failed read raises, ending the run with the
events completed so far and no output file. -/
def generate_summary_report (cashRows : List CashRow)
    (overheadRows : List OverheadRow) (profitRows : List ProfitRow) :
    List Event × Except PyError (List String) :=
  match read_cash_on_hand cashRows with
  | .error e => ([], .error e)
  | .ok cash_data =>
    let cash_differences := cash_on_hand.compute_differences cash_data
    let cashExt := cash_on_hand.find_extremes cash_differences
    match read_overheads overheadRows with
    | .error e =>
      ([.readCash, .analyzeCashDifferences, .analyzeCashExtremes], .error e)
    | .ok overheads_data =>
      let highest_overhead := find_highest_overhead overheads_data
      match read_profit_loss profitRows with
      | .error e =>
        ([.readCash, .analyzeCashDifferences, .analyzeCashExtremes,
          .readOverheads, .analyzeHighestOverhead], .error e)
      | .ok profit_loss_data =>
        let profit_differences := profit_and_loss.compute_differences profit_loss_data
        let profitExt := profit_and_loss.find_extremes profit_differences
        let chunks := overhead_line highest_overhead
          :: (cash_section cash_differences cashExt.1 cashExt.2.2
              ++ profit_section profit_differences profitExt.1 profitExt.2.2)
        ([.readCash, .analyzeCashDifferences, .analyzeCashExtremes,
          .readOverheads, .analyzeHighestOverhead,
          .readProfit, .analyzeProfitDifferences, .analyzeProfitExtremes,
          .openOutput] ++ chunks.map .write,
         .ok chunks)

/-! ### Helper lemmas -/

theorem runMaxBy_cons {α : Type} (f : α → ℚ) (x : α) (xs : List α) (a : α) :
    runMaxBy f (x :: xs) a = runMaxBy f xs (if f x > f a then x else a) := rfl

theorem le_runMaxBy {α : Type} (f : α → ℚ) (l : List α) :
    ∀ a, f a ≤ f (runMaxBy f l a) := by
  induction l with
  | nil => intro a; exact le_refl _
  | cons x xs ih =>
    intro a
    rw [runMaxBy_cons]
    refine le_trans ?_ (ih _)
    by_cases h : f x > f a
    · rw [if_pos h]; exact le_of_lt h
    · rw [if_neg h]

theorem mem_le_runMaxBy {α : Type} (f : α → ℚ) (l : List α) :
    ∀ a p, p ∈ l → f p ≤ f (runMaxBy f l a) := by
  induction l with
  | nil => intro a p hp; cases hp
  | cons x xs ih =>
    intro a p hp
    rw [runMaxBy_cons]
    rcases List.mem_cons.mp hp with rfl | hp2
    · refine le_trans ?_ (le_runMaxBy f xs _)
      by_cases h : f p > f a
      · rw [if_pos h]
      · rw [if_neg h]; exact le_of_not_lt h
    · exact ih _ p hp2

theorem runMaxBy_eq_self {α : Type} (f : α → ℚ) (l : List α) :
    ∀ a, (∀ p ∈ l, f p ≤ f a) → runMaxBy f l a = a := by
  induction l with
  | nil => intro a _; rfl
  | cons x xs ih =>
    intro a h
    rw [runMaxBy_cons, if_neg (not_lt.mpr (h x (List.mem_cons_self x xs)))]
    exact ih a fun p hp => h p (List.mem_cons_of_mem x hp)

theorem runMaxBy_cases {α : Type} (f : α → ℚ) (l : List α) :
    ∀ a, runMaxBy f l a = a ∨
      (runMaxBy f l a ∈ l ∧ f a < f (runMaxBy f l a)) := by
  induction l with
  | nil => intro a; exact Or.inl rfl
  | cons x xs ih =>
    intro a
    rw [runMaxBy_cons]
    by_cases h : f x > f a
    · rw [if_pos h]
      rcases ih x with hc | ⟨hm, hlt⟩
      · exact Or.inr ⟨by rw [hc]; exact List.mem_cons_self x xs, by rw [hc]; exact h⟩
      · exact Or.inr ⟨List.mem_cons_of_mem x hm, lt_trans h hlt⟩
    · rw [if_neg h]
      rcases ih a with hc | ⟨hm, hlt⟩
      · exact Or.inl hc
      · exact Or.inr ⟨List.mem_cons_of_mem x hm, hlt⟩

theorem runMaxBy_find {α : Type} (f : α → ℚ) (l : List α) :
    ∀ a, f a < f (runMaxBy f l a) →
      l.find? (fun p => decide (f p = f (runMaxBy f l a))) =
        some (runMaxBy f l a) := by
  induction l with
  | nil => intro a h; exact absurd h (lt_irrefl _)
  | cons x xs ih =>
    intro a h
    rw [runMaxBy_cons] at h ⊢
    by_cases hx : f x > f a
    · rw [if_pos hx] at h ⊢
      rcases runMaxBy_cases f xs x with hc | ⟨_, hlt⟩
      · rw [hc]
        exact List.find?_cons_of_pos _ (by simp)
      · rw [List.find?_cons_of_neg _ (by simp; exact ne_of_lt hlt)]
        exact ih x hlt
    · rw [if_neg hx] at h ⊢
      have hxa : f x ≤ f a := le_of_not_lt hx
      rw [List.find?_cons_of_neg _ (by simp; exact ne_of_lt (lt_of_le_of_lt hxa h))]
      exact ih a h

theorem extremesStep_fst (acc : (ℤ × ℚ) × (ℤ × ℚ) × List (ℤ × ℚ)) (p : ℤ × ℚ) :
    (extremesStep acc p).1 = if p.2 > acc.1.2 then p else acc.1 := by
  unfold extremesStep
  by_cases h : p.2 > acc.1.2
  · simp [h]
  · by_cases h2 : p.2 < acc.2.1.2 <;> simp [h, h2]

theorem extremesStep_snd_fst (acc : (ℤ × ℚ) × (ℤ × ℚ) × List (ℤ × ℚ)) (p : ℤ × ℚ) :
    (extremesStep acc p).2.1 =
      if p.2 > acc.1.2 then acc.2.1
      else if p.2 < acc.2.1.2 then p else acc.2.1 := by
  unfold extremesStep
  by_cases h : p.2 > acc.1.2
  · simp [h]
  · by_cases h2 : p.2 < acc.2.1.2 <;> simp [h, h2]

theorem extremesStep_snd_snd (acc : (ℤ × ℚ) × (ℤ × ℚ) × List (ℤ × ℚ)) (p : ℤ × ℚ) :
    (extremesStep acc p).2.2 =
      if p.2 < 0 then acc.2.2 ++ [p] else acc.2.2 := rfl

theorem foldl_extremesStep_deficits (l : List (ℤ × ℚ)) :
    ∀ acc, (l.foldl extremesStep acc).2.2 =
      acc.2.2 ++ l.filter fun p => decide (p.2 < 0) := by
  induction l with
  | nil => intro acc; simp
  | cons x xs ih =>
    intro acc
    rw [List.foldl_cons, ih, List.filter_cons, extremesStep_snd_snd]
    by_cases h : x.2 < 0
    · simp [h]
    · simp [h]

theorem foldl_extremesStep_fst (l : List (ℤ × ℚ)) :
    ∀ acc, (l.foldl extremesStep acc).1 = runMaxBy Prod.snd l acc.1 := by
  induction l with
  | nil => intro acc; rfl
  | cons x xs ih =>
    intro acc
    rw [List.foldl_cons, ih, runMaxBy_cons]
    congr 1
    rw [extremesStep_fst]

theorem find_extremes_fst (l : List (ℤ × ℚ)) :
    (cash_on_hand.find_extremes l).1 = runMaxBy Prod.snd l (0, 0) := by
  show (l.foldl extremesStep ((0, 0), (0, 0), [])).1 = _
  rw [foldl_extremesStep_fst]

theorem find_extremes_top (l : List (ℤ × ℚ)) :
    (cash_on_hand.find_extremes l).2.2 =
      ((l.filter fun p => decide (p.2 < 0)).mergeSort deficitLE).take 3 := by
  show (((l.foldl extremesStep ((0, 0), (0, 0), [])).2.2).mergeSort deficitLE).take 3 = _
  rw [foldl_extremesStep_deficits, List.nil_append]

theorem compute_differences_modules_eq (l : List (ℤ × ℚ)) :
    profit_and_loss.compute_differences l = cash_on_hand.compute_differences l := rfl

theorem find_extremes_modules_eq (l : List (ℤ × ℚ)) :
    profit_and_loss.find_extremes l = cash_on_hand.find_extremes l := rfl

theorem deficitLE_trans :
    ∀ a b c : ℤ × ℚ, deficitLE a b → deficitLE b c → deficitLE a c := by
  intro a b c hab hbc
  simp only [deficitLE, decide_eq_true_eq] at *
  exact le_trans hab hbc

theorem deficitLE_total : ∀ a b : ℤ × ℚ, deficitLE a b || deficitLE b a := by
  intro a b
  simp only [deficitLE, Bool.or_eq_true, decide_eq_true_eq]
  exact le_total a.2 b.2

theorem extremesStep_eq_unguarded (acc : (ℤ × ℚ) × (ℤ × ℚ) × List (ℤ × ℚ))
    (p : ℤ × ℚ) (h1 : 0 ≤ acc.1.2) (h2 : acc.2.1.2 ≤ 0) :
    extremesStep acc p = extremesStepUnguarded acc p := by
  unfold extremesStep extremesStepUnguarded
  by_cases hx : p.2 > acc.1.2
  · have hlo : ¬ p.2 < acc.2.1.2 := not_lt.mpr (le_trans h2 (le_trans h1 (le_of_lt hx)))
    simp [hx, hlo]
  · by_cases hl : p.2 < acc.2.1.2 <;> simp [hx, hl]

theorem foldl_guard_invariant (l : List (ℤ × ℚ)) :
    ∀ acc : (ℤ × ℚ) × (ℤ × ℚ) × List (ℤ × ℚ), 0 ≤ acc.1.2 → acc.2.1.2 ≤ 0 →
      l.foldl extremesStep acc = l.foldl extremesStepUnguarded acc ∧
      0 ≤ (l.foldl extremesStep acc).1.2 ∧
      (l.foldl extremesStep acc).2.1.2 ≤ 0 := by
  induction l with
  | nil => intro acc h1 h2; exact ⟨rfl, h1, h2⟩
  | cons x xs ih =>
    intro acc h1 h2
    have hstep := extremesStep_eq_unguarded acc x h1 h2
    have hinv1 : 0 ≤ (extremesStep acc x).1.2 := by
      rw [extremesStep_fst]
      by_cases hx : x.2 > acc.1.2
      · rw [if_pos hx]; exact le_of_lt (lt_of_le_of_lt h1 hx)
      · rw [if_neg hx]; exact h1
    have hinv2 : (extremesStep acc x).2.1.2 ≤ 0 := by
      rw [extremesStep_snd_fst]
      by_cases hx : x.2 > acc.1.2
      · rw [if_pos hx]; exact h2
      · rw [if_neg hx]
        by_cases hl : x.2 < acc.2.1.2
        · rw [if_pos hl]; exact le_of_lt (lt_of_lt_of_le hl h2)
        · rw [if_neg hl]; exact h2
    rw [List.foldl_cons, List.foldl_cons, ← hstep]
    exact ih _ hinv1 hinv2

/-! ### Claim theorems -/

/-- C1: both `compute_differences` copies return exactly `N-1` entries
(empty when `N ≤ 1`, since `length - 1 = 0` then), and entry `i` is the
pair `(day[i+1], value[i+1] - value[i])`. -/
theorem C1_compute_differences_spec (data : List (ℤ × ℚ)) :
    (cash_on_hand.compute_differences data).length = data.length - 1 ∧
    (profit_and_loss.compute_differences data).length = data.length - 1 ∧
    ∀ i, i + 1 < data.length →
      (cash_on_hand.compute_differences data).getD i (0, 0) =
        ((data.getD (i + 1) (0, 0)).1,
          (data.getD (i + 1) (0, 0)).2 - (data.getD i (0, 0)).2) ∧
      (profit_and_loss.compute_differences data).getD i (0, 0) =
        ((data.getD (i + 1) (0, 0)).1,
          (data.getD (i + 1) (0, 0)).2 - (data.getD i (0, 0)).2) := by
  have hlen : (cash_on_hand.compute_differences data).length = data.length - 1 := by
    simp [cash_on_hand.compute_differences]
  refine ⟨hlen, by rw [compute_differences_modules_eq]; exact hlen, ?_⟩
  intro i h
  have hi : i < (cash_on_hand.compute_differences data).length := by rw [hlen]; omega
  have key : (cash_on_hand.compute_differences data).getD i (0, 0) =
      ((data.getD (i + 1) (0, 0)).1,
        (data.getD (i + 1) (0, 0)).2 - (data.getD i (0, 0)).2) := by
    rw [List.getD_eq_getElem?_getD, List.getElem?_eq_getElem hi, Option.getD_some]
    simp [cash_on_hand.compute_differences, Nat.add_comm]
  exact ⟨key, by rw [compute_differences_modules_eq]; exact key⟩

/-- C1 witness at `[(1,100),(2,150),(3,90)]`, `i = 1`. -/
theorem C1_compute_differences_spec_witness :
    (cash_on_hand.compute_differences
        [((1 : ℤ), (100 : ℚ)), (2, 150), (3, 90)]).getD 1 (0, 0) =
      ((3 : ℤ), (-60 : ℚ)) := by
  have h := (C1_compute_differences_spec
    [((1 : ℤ), (100 : ℚ)), (2, 150), (3, 90)]).2.2 1 (by decide)
  exact h.1.trans (by norm_num)

/-- C2: the highest-increase scan is seeded with the `(0, 0)` sentinel:
if every delta is `≤ 0` both copies return exactly `(0, 0)`; the
returned delta bounds every input delta; and whenever a real update
happened (`0 < delta`), the returned record is the first-encountered
entry attaining the maximum delta, because only a strictly greater delta
updates the running maximum. -/
theorem C2_highest_increase_sentinel (l : List (ℤ × ℚ)) :
    ((∀ p ∈ l, p.2 ≤ 0) → (cash_on_hand.find_extremes l).1 = (0, 0) ∧
        (profit_and_loss.find_extremes l).1 = (0, 0)) ∧
    (∀ p ∈ l, p.2 ≤ (cash_on_hand.find_extremes l).1.2) ∧
    ((0 : ℚ) < (cash_on_hand.find_extremes l).1.2 →
      l.find? (fun p => decide (p.2 = (cash_on_hand.find_extremes l).1.2)) =
        some (cash_on_hand.find_extremes l).1) := by
  rw [find_extremes_modules_eq, find_extremes_fst]
  refine ⟨?_, ?_, ?_⟩
  · intro h
    have he : runMaxBy Prod.snd l (0, 0) = ((0 : ℤ), (0 : ℚ)) :=
      runMaxBy_eq_self Prod.snd l (0, 0) fun p hp => h p hp
    exact ⟨he, he⟩
  · exact fun p hp => mem_le_runMaxBy Prod.snd l (0, 0) p hp
  · exact fun h => runMaxBy_find Prod.snd l (0, 0) h

/-- C2 witness: all-negative deltas leave the sentinel; on a tie for
the maximum the first entry is returned. -/
theorem C2_highest_increase_sentinel_witness :
    (cash_on_hand.find_extremes [((1 : ℤ), (-5 : ℚ)), (2, -3)]).1 = (0, 0) ∧
    List.find?
        (fun p => decide (p.2 =
          (cash_on_hand.find_extremes [((1 : ℤ), (7 : ℚ)), (2, 7)]).1.2))
        [((1 : ℤ), (7 : ℚ)), (2, 7)] =
      some (cash_on_hand.find_extremes [((1 : ℤ), (7 : ℚ)), (2, 7)]).1 := by
  constructor
  · exact ((C2_highest_increase_sentinel [((1 : ℤ), (-5 : ℚ)), (2, -3)]).1
      (by decide)).1
  · exact (C2_highest_increase_sentinel [((1 : ℤ), (7 : ℚ)), (2, 7)]).2.2
      (by decide)

/-- C3: `top_deficits` has length `min 3 (#negative deltas)`, is sorted
ascending by delta (most negative first), entries with equal delta keep
their original relative order (the filter at any given delta value is a
sublist of the deficits in original order), and both modules agree. -/
theorem C3_top_deficits (l : List (ℤ × ℚ)) :
    (cash_on_hand.find_extremes l).2.2.length =
      min 3 ((l.filter fun p => decide (p.2 < 0)).length) ∧
    (cash_on_hand.find_extremes l).2.2.Pairwise (fun a b => a.2 ≤ b.2) ∧
    (∀ q : ℚ,
      ((cash_on_hand.find_extremes l).2.2.filter fun p => decide (p.2 = q)).Sublist
        ((l.filter fun p => decide (p.2 < 0)).filter fun p => decide (p.2 = q))) ∧
    (profit_and_loss.find_extremes l).2.2 = (cash_on_hand.find_extremes l).2.2 := by
  rw [find_extremes_modules_eq, find_extremes_top]
  set d := l.filter fun p => decide (p.2 < 0) with hd
  refine ⟨?_, ?_, ?_, rfl⟩
  · rw [List.length_take, List.length_mergeSort]
  · have hs := List.sorted_mergeSort deficitLE_trans deficitLE_total d
    have hs2 : (d.mergeSort deficitLE).Pairwise fun a b => a.2 ≤ b.2 :=
      hs.imp fun h => by simpa [deficitLE] using h
    exact hs2.take
  · intro q
    have hpw : (d.filter fun p => decide (p.2 = q)).Pairwise
        fun a b => deficitLE a b := by
      refine List.pairwise_of_forall_mem_list ?_
      intro a ha b hb
      have ha2 := (List.mem_filter.mp ha).2
      have hb2 := (List.mem_filter.mp hb).2
      simp only [decide_eq_true_eq] at ha2 hb2
      simp [deficitLE, ha2, hb2]
    have hsub : List.Sublist (d.filter fun p => decide (p.2 = q))
        (d.mergeSort deficitLE) :=
      List.sublist_mergeSort deficitLE_trans deficitLE_total hpw
        (List.filter_sublist d)
    have hc : (d.filter fun p => decide (p.2 = q)).filter
        (fun p => decide (p.2 = q)) = d.filter fun p => decide (p.2 = q) :=
      List.filter_eq_self.mpr fun a ha => (List.mem_filter.mp ha).2
    have hsub2 : List.Sublist (d.filter fun p => decide (p.2 = q))
        ((d.mergeSort deficitLE).filter fun p => decide (p.2 = q)) := by
      have h2 := hsub.filter fun p => decide (p.2 = q)
      rwa [hc] at h2
    have hperm : List.Perm
        ((d.mergeSort deficitLE).filter fun p => decide (p.2 = q))
        (d.filter fun p => decide (p.2 = q)) :=
      (List.mergeSort_perm d deficitLE).filter _
    have hstable : ((d.mergeSort deficitLE).filter fun p => decide (p.2 = q)) =
        d.filter fun p => decide (p.2 = q) :=
      (hsub2.eq_of_length hperm.length_eq.symm).symm
    rw [← hstable]
    exact (List.take_sublist 3 _).filter _

/-- C4: the cash block takes the single-line surplus branch exactly when
no cash delta is negative; the condition is recomputed from the full
delta sequence (the extremes arguments are arbitrary here); the profit
block behaves identically. -/
theorem C4_surplus_branch_iff (cash_differences profit_differences : List (ℤ × ℚ))
    (cash_increase profit_increase : ℤ × ℚ)
    (cash_deficits profit_deficits : List (ℤ × ℚ)) :
    (cash_section cash_differences cash_increase cash_deficits =
        [surplus_cash_line cash_increase] ↔ ∀ p ∈ cash_differences, 0 ≤ p.2) ∧
    (profit_section profit_differences profit_increase profit_deficits =
        [surplus_profit_line profit_increase] ↔
      ∀ p ∈ profit_differences, 0 ≤ p.2) := by
  constructor
  · by_cases hc : (cash_differences.all fun p => decide (p.2 ≥ 0)) = true
    · constructor
      · intro _ p hp
        have h := List.all_eq_true.mp hc p hp
        simpa using h
      · intro _
        simp [cash_section, hc]
    · constructor
      · intro heq
        have hlen := congrArg List.length heq
        simp [cash_section, hc, List.length_append] at hlen
        exfalso
        omega
      · intro hall
        exact absurd (List.all_eq_true.mpr fun p hp => by simpa using hall p hp) hc
  · by_cases hc : (profit_differences.all fun p => decide (p.2 ≥ 0)) = true
    · constructor
      · intro _ p hp
        have h := List.all_eq_true.mp hc p hp
        simpa using h
      · intro _
        simp [profit_section, hc]
    · constructor
      · intro heq
        have hlen := congrArg List.length heq
        simp [profit_section, hc, List.length_append] at hlen
        exfalso
        omega
      · intro hall
        exact absurd (List.all_eq_true.mpr fun p hp => by simpa using hall p hp) hc

/-- C5: the concrete round-trip scenario of the spec: differences,
extremes, and the cash block lines of the report, with the deficit
magnitude printed as an absolute value directly after `USD`. -/
theorem C5_round_trip_scenario :
    cash_on_hand.compute_differences
        [((1 : ℤ), (100 : ℚ)), (2, 150), (3, 90), (4, 90)] =
      [((2 : ℤ), (50 : ℚ)), (3, -60), (4, 0)] ∧
    cash_on_hand.find_extremes [((2 : ℤ), (50 : ℚ)), (3, -60), (4, 0)] =
      ((2, 50), (3, -60), [(3, -60)]) ∧
    cash_section [((2 : ℤ), (50 : ℚ)), (3, -60), (4, 0)] (2, 50) [(3, -60)] =
      ["[CASH DEFICIT] DAY: 3, AMOUNT: USD60.0\n", "\n",
       "[1ST HIGHEST CASH DEFICIT] DAY: 3, AMOUNT: USD60.0\n", "\n"] := by
  refine ⟨?_, ?_, ?_⟩
  · simp only [cash_on_hand.compute_differences]
    norm_num [List.range_succ]
  · simp only [cash_on_hand.find_extremes, List.foldl_cons, List.foldl_nil,
      extremesStep]
    norm_num
  · have hc : ([((2 : ℤ), (50 : ℚ)), (3, -60), (4, 0)].all
        fun p => decide (p.2 ≥ 0)) = false := by decide
    have habs : |(-60 : ℚ)| = 60 := by norm_num
    simp only [cash_section, hc, Bool.false_eq_true, if_false,
      List.filter_cons, List.filter_nil, List.mergeSort_singleton, List.take,
      List.enum, List.map_cons, List.map_nil, List.enumFrom]
    norm_num [habs]
    exact ⟨rfl, rfl⟩

/-- C6: `find_highest_overhead` returns a record whose amount bounds
every input amount; it is seeded with the sentinel `⟨"", 0⟩`, returned
unchanged when every amount is `≤ 0`; ties for the maximum keep the
first-encountered maximal record. -/
theorem C6_highest_overhead (l : List Overhead) :
    (∀ r ∈ l, r.overhead ≤ (find_highest_overhead l).overhead) ∧
    ((∀ r ∈ l, r.overhead ≤ 0) → find_highest_overhead l = ⟨"", 0⟩) ∧
    ((0 : ℚ) < (find_highest_overhead l).overhead →
      l.find? (fun r => decide (r.overhead = (find_highest_overhead l).overhead)) =
        some (find_highest_overhead l)) := by
  have hdef : find_highest_overhead l = runMaxBy Overhead.overhead l ⟨"", 0⟩ := rfl
  rw [hdef]
  exact ⟨fun r hr => mem_le_runMaxBy Overhead.overhead l ⟨"", 0⟩ r hr,
    fun h => runMaxBy_eq_self Overhead.overhead l ⟨"", 0⟩ fun p hp => h p hp,
    fun h => runMaxBy_find Overhead.overhead l ⟨"", 0⟩ h⟩

/-- C6 witness: the spec's overhead scenario plus the all-nonpositive
sentinel case. -/
theorem C6_highest_overhead_witness :
    (Overhead.mk "Rent" 40).overhead ≤
      (find_highest_overhead
        [⟨"Rent", 40⟩, ⟨"Payroll", 55⟩, ⟨"Utilities", 5⟩]).overhead ∧
    find_highest_overhead [⟨"a", (-1 : ℚ)⟩] = ⟨"", 0⟩ ∧
    List.find?
        (fun r => decide (r.overhead =
          (find_highest_overhead
            [⟨"Rent", (40 : ℚ)⟩, ⟨"Payroll", 55⟩, ⟨"Utilities", 5⟩]).overhead))
        [⟨"Rent", (40 : ℚ)⟩, ⟨"Payroll", 55⟩, ⟨"Utilities", 5⟩] =
      some (find_highest_overhead
        [⟨"Rent", (40 : ℚ)⟩, ⟨"Payroll", 55⟩, ⟨"Utilities", 5⟩]) := by
  refine ⟨(C6_highest_overhead _).1 _ (by simp), ?_, ?_⟩
  · exact (C6_highest_overhead [⟨"a", (-1 : ℚ)⟩]).2.1 (by
      intro r hr
      simp only [List.mem_singleton] at hr
      rw [hr]
      norm_num)
  · exact (C6_highest_overhead _).2.2 (by decide)

/-- C8: the cash-on-hand and profit-and-loss copies of the difference
engine and extremes finder are extensionally equal. -/
theorem C8_modules_extensionally_equal (l : List (ℤ × ℚ)) :
    profit_and_loss.compute_differences l = cash_on_hand.compute_differences l ∧
    profit_and_loss.find_extremes l = cash_on_hand.find_extremes l :=
  ⟨compute_differences_modules_eq l, find_extremes_modules_eq l⟩

theorem read_cash_on_hand_error (rows : List CashRow) (row : CashRow)
    (hmem : row ∈ rows) (hbad : pyFloat row.cash_on_hand = none) :
    read_cash_on_hand rows = .error .formatError := by
  induction rows with
  | nil => cases hmem
  | cons x xs ih =>
    rcases List.mem_cons.mp hmem with rfl | hmem2
    · cases h1 : coerceInt row.day with
      | error e => cases e; simp [read_cash_on_hand, h1]
      | ok d =>
        have h2 : coerceFloat row.cash_on_hand = .error .formatError := by
          simp [coerceFloat, hbad]
        simp [read_cash_on_hand, h1, h2]
    · cases h1 : coerceInt x.day with
      | error e => cases e; simp [read_cash_on_hand, h1]
      | ok d =>
        cases h2 : coerceFloat x.cash_on_hand with
        | error e => cases e; simp [read_cash_on_hand, h1, h2]
        | ok c => simp [read_cash_on_hand, h1, h2, ih hmem2]

/-- C7: a cash row whose `Cash On Hand` cell fails float coercion makes
the run end with `FormatError`; the output file is never opened (hence
never created or truncated) and nothing is written. -/
theorem C7_format_error_no_output (cashRows : List CashRow)
    (overheadRows : List OverheadRow) (profitRows : List ProfitRow)
    (row : CashRow) (hmem : row ∈ cashRows)
    (hbad : pyFloat row.cash_on_hand = none) :
    (generate_summary_report cashRows overheadRows profitRows).2 =
      .error PyError.formatError ∧
    Event.openOutput ∉ (generate_summary_report cashRows overheadRows profitRows).1 ∧
    ∀ s, Event.write s ∉ (generate_summary_report cashRows overheadRows profitRows).1 := by
  have hread : read_cash_on_hand cashRows = .error .formatError :=
    read_cash_on_hand_error cashRows row hmem hbad
  simp [generate_summary_report, hread]

/-- C7 witness: a run whose cash file holds the non-numeric cell
`"abc"`. -/
theorem C7_format_error_no_output_witness :
    (generate_summary_report [⟨"1", "abc"⟩] [] []).2 = .error PyError.formatError ∧
    Event.openOutput ∉ (generate_summary_report [⟨"1", "abc"⟩] [] []).1 := by
  have h := C7_format_error_no_output [⟨"1", "abc"⟩] [] [] ⟨"1", "abc"⟩
    (List.mem_singleton.mpr rfl) (by rfl)
  exact ⟨h.1, h.2.1⟩

/-- C9 counterexample: on a well-formed run the cash analysis events
occur before the overheads file is read, refuting "all three input
sources are read to completion before any analysis step begins". -/
theorem C9_reads_first_counterexample :
    (generate_summary_report [] [] []).1.take 4 =
      [Event.readCash, Event.analyzeCashDifferences, Event.analyzeCashExtremes,
       Event.readOverheads] := rfl

/-- C9 (amended): each source is read to completion before its own
analysis, reads and analyses are interleaved per source in the fixed
order cash, overheads, profit, and whenever the output file is opened
all three reads (and all analyses) have already completed; after the
opening only writes occur. -/
theorem C9_reads_precede_open (cashRows : List CashRow)
    (overheadRows : List OverheadRow) (profitRows : List ProfitRow)
    (h : Event.openOutput ∈
      (generate_summary_report cashRows overheadRows profitRows).1) :
    ∃ ws, (generate_summary_report cashRows overheadRows profitRows).1 =
      [Event.readCash, Event.analyzeCashDifferences, Event.analyzeCashExtremes,
       Event.readOverheads, Event.analyzeHighestOverhead, Event.readProfit,
       Event.analyzeProfitDifferences, Event.analyzeProfitExtremes,
       Event.openOutput] ++ ws ∧
      ∀ e ∈ ws, ∃ s, e = Event.write s := by
  cases h1 : read_cash_on_hand cashRows with
  | error e => simp [generate_summary_report, h1] at h
  | ok cash_data =>
    cases h2 : read_overheads overheadRows with
    | error e => simp [generate_summary_report, h1, h2] at h
    | ok overheads_data =>
      cases h3 : read_profit_loss profitRows with
      | error e => simp [generate_summary_report, h1, h2, h3] at h
      | ok profit_loss_data =>
        simp only [generate_summary_report, h1, h2, h3]
        refine ⟨_, rfl, ?_⟩
        intro e he
        obtain ⟨s, _, rfl⟩ := List.mem_map.mp he
        exact ⟨s, rfl⟩

/-- C9 amended-claim witness at a concrete successful run. -/
theorem C9_reads_precede_open_witness :
    ∃ ws, (generate_summary_report [] [] []).1 =
      [Event.readCash, Event.analyzeCashDifferences, Event.analyzeCashExtremes,
       Event.readOverheads, Event.analyzeHighestOverhead, Event.readProfit,
       Event.analyzeProfitDifferences, Event.analyzeProfitExtremes,
       Event.openOutput] ++ ws ∧
      ∀ e ∈ ws, ∃ s, e = Event.write s :=
  C9_reads_precede_open [] [] [] (by decide)

/-- C10: the scan maintains `highest_increase.delta ≥ 0` and
`highest_decrease.delta ≤ 0` from the `(0,0)` sentinels, so a delta can
never pass both comparisons of one iteration, and the `elif`-guarded
minimum update computes the same result as independent `if` updates. -/
theorem C10_elif_guard_equivalence (l : List (ℤ × ℚ)) :
    0 ≤ (cash_on_hand.find_extremes l).1.2 ∧
    (cash_on_hand.find_extremes l).2.1.2 ≤ 0 ∧
    cash_on_hand.find_extremes l = find_extremes_unguarded l ∧
    profit_and_loss.find_extremes l = find_extremes_unguarded l := by
  obtain ⟨heq, h1, h2⟩ :=
    foldl_guard_invariant l ((0, 0), (0, 0), []) (le_refl 0) (le_refl 0)
  refine ⟨h1, h2, ?_, ?_⟩
  · simp only [cash_on_hand.find_extremes, find_extremes_unguarded]
    rw [heq]
  · simp only [profit_and_loss.find_extremes, find_extremes_unguarded]
    rw [heq]

end PRG
